import Mathlib

/-!
Shallow embedding of the `ReusableForm` component
(`src/components/formComponent/ReusableForm.jsx`) of the
react-reusable-form-component repository, together with the submit
pipeline it delegates to, and proofs of the spec claims about it.

The component maps a list of field descriptors to rendered controls,
computes per-field visibility from the currently watched form values,
validates at submit via a caller-supplied schema and either invokes the
caller's `onSubmit` once with the full value mapping or displays
per-field error messages.
-/

namespace ReusableForm

/-- JavaScript values as they occur in this form: `undefined`, `null`,
booleans, (integer) numbers, strings, and file handles. -/
inductive JsValue where
  | undefined
  | nullv
  | bool (b : Bool)
  | num (n : Int)
  | str (s : String)
  | file (fname : String)
deriving DecidableEq, Repr

/-- JavaScript truthiness of an embedded value (`Boolean(v)`). -/
def JsValue.truthy : JsValue → Bool
  | .undefined => false
  | .nullv => false
  | .bool b => b
  | .num n => n != 0
  | .str s => s != ""
  | .file _ => true

/-- JavaScript `a || b`: the first operand when it is truthy, otherwise
the second (as used in `field.max || 5` and `watch(field.name) || 0`). -/
def jsOr (a b : JsValue) : JsValue := if a.truthy then a else b

/-- JavaScript numeric coercion `Number(v)` on the embedded values;
`none` stands for `NaN`. -/
def toNumber : JsValue → Option Int
  | .undefined => none
  | .nullv => some 0
  | .bool b => some (if b then 1 else 0)
  | .num n => some n
  | .str s => if s = "" then some 0 else s.toInt?
  | .file _ => none

/-- JavaScript `a <= b` for a number `a` against an arbitrary value `b`
(coerces `b` to a number; any comparison against `NaN` is false). -/
def jsLe (a : Int) (b : JsValue) : Bool :=
  match toNumber b with
  | some n => a ≤ n
  | none => false

/-- One `{value, label}` entry of a radio/select descriptor's `options`. -/
structure FieldOption where
  value : String
  label : String
deriving DecidableEq, Repr

/-- The `conditional: {field, value}` pair of a conditional descriptor. -/
structure Conditional where
  field : String
  value : JsValue
deriving DecidableEq, Repr

/-- A field descriptor, as documented in the component header comment:
`name`, `label`, `type`, optional `placeholder`, `options` (present for
radio/select), optional `conditional` and optional `max` (rating). An
absent JS property is `none`. -/
structure Field where
  name : String
  label : String
  type : String
  placeholder : Option String := none
  options : Option (List FieldOption) := none
  conditional : Option Conditional := none
  max : Option JsValue := none
deriving DecidableEq, Repr

/-- The form value store kept by `useForm`: field name to current value.
Newer entries are prepended, lookup takes the newest. -/
abbrev FormValues := List (String × JsValue)

/-- `watchedValues[name]`: the current value of a field, `undefined` when
the field was never set. -/
def getValue (vs : FormValues) (name : String) : JsValue :=
  match vs.lookup name with
  | some v => v
  | none => .undefined

/-- A change event on a control: `useForm` records the new value for the
field, leaving every other field's entry intact. -/
def setValue (vs : FormValues) (name : String) (v : JsValue) : FormValues :=
  (name, v) :: vs

/-- `shouldRender` from the component: a field with no `conditional` is
always rendered; otherwise it is rendered iff the watched value of
`conditional.field` is strictly equal (`===`) to `conditional.value`. -/
def shouldRender (watchedValues : FormValues) (f : Field) : Bool :=
  match f.conditional with
  | none => true
  | some c => getValue watchedValues c.field == c.value

/-- The validation errors surfaced by the resolver: field name to message
(the component reads `errors[field.name].message`, a single string). -/
abbrev ValidationResult := List (String × String)

/-- A schema validator as the component consumes it through
`yupResolver`: current values in, per-field error messages out. -/
abbrev Schema := FormValues → ValidationResult

/-- Number of star levels of a rating control:
`[...Array(field.max || 5)]` in the source. -/
def starCount (f : Field) : Nat :=
  match jsOr (f.max.getD .undefined) (.num 5) with
  | .num n => n.toNat
  | _ => 0

/-- The star row of a rating control: level `i + 1` displays `★` (true)
iff `value <= (watch(field.name) || 0)` in the source, `☆` otherwise. -/
def ratingStarsOf (values : FormValues) (f : Field) : List Bool :=
  (List.range (starCount f)).map
    (fun i : Nat => jsLe ((i : Int) + 1) (jsOr (getValue values f.name) (.num 0)))

/-- A runtime error escaping the render (the only one the JSX can raise:
calling `.map` on an `undefined` `options`). -/
inductive RenderError where
  | typeError (msg : String)
deriving DecidableEq, Repr

/-- The control rendered inside one field container, per the `type`
dispatch of the JSX; `nothing` is an unrecognized `type`, for which no
branch matches and no control is emitted. -/
inductive RenderedControl where
  | input (ty : String) (placeholder : Option String)
  | textareaBox (placeholder : Option String)
  | selectBox (opts : List FieldOption)
  | radioGroup (opts : List FieldOption)
  | checkboxBox
  | fileInput
  | ratingRow (stars : List Bool)
  | nothing
deriving DecidableEq, Repr

/-- One rendered field container: the outer label (absent for checkbox
and rating, which place their own), the control, and the error message
div rendered when `errors[field.name]` is set. -/
structure RenderedField where
  name : String
  label : Option String
  control : RenderedControl
  errorMsg : Option String
deriving DecidableEq, Repr

/-- The `type` dispatch of the JSX, one branch per supported type.
Radio/select map over `field.options`, which throws a TypeError when
`options` is absent; an unrecognized type matches no branch. -/
def renderControl (values : FormValues) (f : Field) :
    Except RenderError RenderedControl :=
  if f.type = "text" ∨ f.type = "email" ∨ f.type = "password" ∨ f.type = "date" then
    .ok (.input f.type f.placeholder)
  else if f.type = "textarea" then
    .ok (.textareaBox f.placeholder)
  else if f.type = "select" then
    match f.options with
    | some opts => .ok (.selectBox opts)
    | none => .error (.typeError "Cannot read properties of undefined (reading map)")
  else if f.type = "radio" then
    match f.options with
    | some opts => .ok (.radioGroup opts)
    | none => .error (.typeError "Cannot read properties of undefined (reading map)")
  else if f.type = "checkbox" then
    .ok .checkboxBox
  else if f.type = "file" then
    .ok .fileInput
  else if f.type = "rating" then
    .ok (.ratingRow (ratingStarsOf values f))
  else
    .ok .nothing

/-- The body of `fields.map`: skip the whole container (including the
error-message slot) when `shouldRender` is false, else emit label,
control and error message. -/
def renderField (values : FormValues) (errs : ValidationResult) (f : Field) :
    Except RenderError (Option RenderedField) :=
  if shouldRender values f then
    match renderControl values f with
    | .error e => .error e
    | .ok c =>
      .ok (some
        { name := f.name
          label := if f.type ≠ "checkbox" ∧ f.type ≠ "rating" then some f.label else none
          control := c
          errorMsg := errs.lookup f.name })
  else
    .ok none

/-- `fields.map(...)` over the descriptor list, in order; a thrown
TypeError aborts the render. -/
def renderForm (values : FormValues) (errs : ValidationResult) :
    List Field → Except RenderError (List RenderedField)
  | [] => .ok []
  | f :: rest =>
    match renderField values errs f with
    | .error e => .error e
    | .ok none => renderForm values errs rest
    | .ok (some r) =>
      match renderForm values errs rest with
      | .error e => .error e
      | .ok rs => .ok (r :: rs)

/-- Outcome of `handleSubmit(enhancedSubmit)` on a submit event:
validation over the current values either passes, invoking the callback,
or fails, surfacing the errors. -/
inductive SubmitOutcome where
  | called (data : FormValues)
  | blocked (errs : ValidationResult)
deriving DecidableEq, Repr

/-- `handleSubmit` of the form library as the component uses it: run the
schema resolver on the current values; on success hand the full value
mapping to `enhancedSubmit`, on failure record the errors and do not. -/
def handleSubmitRun (schema : Schema) (values : FormValues) : SubmitOutcome :=
  let errs := schema values
  if errs.isEmpty then .called values else .blocked errs

/-- The list of payloads `onSubmit` receives during one submit event:
exactly one (the full value mapping) on success, none on failure. -/
def onSubmitCalls (schema : Schema) (values : FormValues) : List FormValues :=
  match handleSubmitRun schema values with
  | .called data => [data]
  | .blocked _ => []

/-- `enhancedSubmit`: `(data) => { onSubmit(data); }` — it calls the
caller's callback and wraps nothing, so an exception passes through. -/
def enhancedSubmit (onSubmit : FormValues → Except String Unit)
    (data : FormValues) : Except String Unit :=
  onSubmit data

/-- A whole submit event with a fallible caller callback: `.ok true` =
validated and submitted, `.ok false` = blocked by validation, `.error` =
an exception from `onSubmit` escaped the wrapper. -/
def submitEvent (schema : Schema) (onSubmit : FormValues → Except String Unit)
    (values : FormValues) : Except String Bool :=
  if (schema values).isEmpty then
    match enhancedSubmit onSubmit values with
    | .ok _ => .ok true
    | .error e => .error e
  else
    .ok false

/-- The live form state: the value store plus the currently displayed
errors (`formState.errors`). -/
structure FormState where
  values : FormValues
  errors : ValidationResult
deriving DecidableEq, Repr

/-- A user change event updates the value store. -/
def changeValue (s : FormState) (name : String) (v : JsValue) : FormState :=
  { s with values := setValue s.values name v }

/-- A submit event: re-run validation, replace the displayed errors by
the fresh result, and return the payload handed to `onSubmit` (if any). -/
def submitStep (schema : Schema) (s : FormState) :
    FormState × Option FormValues :=
  let errs := schema s.values
  if errs.isEmpty then ({ s with errors := [] }, some s.values)
  else ({ s with errors := errs }, none)

/-- The ten descriptor `type` values the dispatch recognizes. -/
def supportedTypes : List String :=
  ["text", "email", "password", "date", "textarea", "checkbox",
   "radio", "select", "file", "rating"]

instance {ε α : Type} [DecidableEq ε] [DecidableEq α] :
    DecidableEq (Except ε α) := fun a b =>
  match a, b with
  | .ok x, .ok y => decidable_of_iff (x = y) (by simp)
  | .error x, .error y => decidable_of_iff (x = y) (by simp)
  | .ok _, .error _ => isFalse (by simp)
  | .error _, .ok _ => isFalse (by simp)

/-! ## Basic lemmas about the embedding -/

theorem lookup_setValue_self (vs : FormValues) (n : String) (v : JsValue) :
    (setValue vs n v).lookup n = some v := by
  simp [setValue, List.lookup]

theorem lookup_setValue_ne (vs : FormValues) (n : String) (v : JsValue)
    (name : String) (h : name ≠ n) :
    (setValue vs n v).lookup name = vs.lookup name := by
  have hb : (name == n) = false := by simpa using h
  simp [setValue, List.lookup, hb]

theorem getValue_setValue_self (vs : FormValues) (n : String) (v : JsValue) :
    getValue (setValue vs n v) n = v := by
  simp [getValue, lookup_setValue_self]

theorem getValue_setValue_ne (vs : FormValues) (n : String) (v : JsValue)
    (name : String) (h : name ≠ n) :
    getValue (setValue vs n v) name = getValue vs name := by
  simp [getValue, lookup_setValue_ne vs n v name h]

theorem renderField_ok_some {values : FormValues} {errs : ValidationResult}
    {f : Field} {r : RenderedField}
    (h : renderField values errs f = .ok (some r)) :
    shouldRender values f = true ∧ r.name = f.name ∧
    r.errorMsg = errs.lookup f.name := by
  unfold renderField at h
  split at h
  · next hsr =>
    split at h
    · simp at h
    · simp only [Except.ok.injEq, Option.some.injEq] at h
      subst h
      exact ⟨hsr, rfl, rfl⟩
  · simp at h

theorem renderField_ok_none {values : FormValues} {errs : ValidationResult}
    {f : Field} (h : renderField values errs f = .ok none) :
    shouldRender values f = false := by
  unfold renderField at h
  split at h
  · split at h <;> simp at h
  · next hsr => simpa using hsr

theorem renderForm_ok_names {values : FormValues} {errs : ValidationResult} :
    ∀ {fields : List Field} {rs : List RenderedField},
    renderForm values errs fields = .ok rs →
    rs.map RenderedField.name =
      (fields.filter (fun f => shouldRender values f)).map Field.name := by
  intro fields
  induction fields with
  | nil =>
    intro rs h
    simp only [renderForm, Except.ok.injEq] at h
    subst h
    simp
  | cons f rest ih =>
    intro rs h
    simp only [renderForm] at h
    split at h
    · simp at h
    · next hnone =>
      have hsr := renderField_ok_none hnone
      simpa [List.filter_cons, hsr] using ih h
    · next r hsome =>
      obtain ⟨hsr, hname, _⟩ := renderField_ok_some hsome
      split at h
      · simp at h
      · next rs' hrest =>
        simp only [Except.ok.injEq] at h
        subst h
        simp [List.filter_cons, hsr, hname, ih hrest]

theorem renderForm_ok_mem {values : FormValues} {errs : ValidationResult} :
    ∀ {fields : List Field} {rs : List RenderedField},
    renderForm values errs fields = .ok rs →
    ∀ r ∈ rs, ∃ f ∈ fields, renderField values errs f = .ok (some r) := by
  intro fields
  induction fields with
  | nil =>
    intro rs h
    simp only [renderForm, Except.ok.injEq] at h
    subst h
    simp
  | cons f rest ih =>
    intro rs h r hr
    simp only [renderForm] at h
    split at h
    · simp at h
    · obtain ⟨g, hg, hgr⟩ := ih h r hr
      exact ⟨g, List.mem_cons_of_mem _ hg, hgr⟩
    · next x hsome =>
      split at h
      · simp at h
      · next rs' hrest =>
        simp only [Except.ok.injEq] at h
        subst h
        rcases List.mem_cons.mp hr with hrx | hrx
        · subst hrx
          exact ⟨f, List.mem_cons_self _ _, hsome⟩
        · obtain ⟨g, hg, hgr⟩ := ih hrest r hrx
          exact ⟨g, List.mem_cons_of_mem _ hg, hgr⟩

theorem lookup_split {α : Type} {l : List (String × α)} {k : String} {m : α}
    (h : l.lookup k = some m) :
    ∃ pre post, l = pre ++ (k, m) :: post ∧ ∀ p ∈ pre, p.1 ≠ k := by
  induction l with
  | nil => simp [List.lookup] at h
  | cons p rest ih =>
    obtain ⟨pk, pv⟩ := p
    by_cases hk : k = pk
    · subst hk
      have hb : (k == k) = true := beq_self_eq_true k
      simp only [List.lookup, hb, Option.some.injEq] at h
      exact ⟨[], rest, by simp [h], by simp⟩
    · have hb : (k == pk) = false := by simpa using hk
      simp only [List.lookup, hb] at h
      obtain ⟨pre, post, hl, hpre⟩ := ih h
      refine ⟨(pk, pv) :: pre, post, by simp [hl], ?_⟩
      intro q hq
      rcases List.mem_cons.mp hq with hq | hq
      · subst hq
        exact fun hc => hk hc.symm
      · exact hpre q hq

theorem lookup_eq_none_of_keys_ne {α : Type} {l : List (String × α)}
    {k : String} (h : ∀ p ∈ l, p.1 ≠ k) : l.lookup k = none := by
  induction l with
  | nil => rfl
  | cons p rest ih =>
    obtain ⟨pk, pv⟩ := p
    have hb : (k == pk) = false := by
      simpa using fun hc => h (pk, pv) (List.mem_cons_self _ _) hc.symm
    simp only [List.lookup, hb]
    exact ih (fun q hq => h q (List.mem_cons_of_mem _ hq))

theorem jsOr_num_zero (s : Int) : jsOr (.num s) (.num 0) = .num s := by
  by_cases h : s = 0
  · subst h; rfl
  · simp [jsOr, JsValue.truthy, bne_iff_ne, h]

theorem jsLe_num (a n : Int) : jsLe a (.num n) = decide (a ≤ n) := rfl

theorem starCount_num {f : Field} {m : Int} (hmax : f.max = some (.num m))
    (hm : m ≠ 0) : starCount f = m.toNat := by
  simp [starCount, hmax, jsOr, JsValue.truthy, bne_iff_ne, hm]

theorem ratingStarsOf_num {values : FormValues} {f : Field} {m s : Int}
    (hmax : f.max = some (.num m)) (hm : m ≠ 0)
    (hs : getValue values f.name = .num s) :
    ratingStarsOf values f =
      (List.range m.toNat).map (fun i : Nat => decide ((i : Int) + 1 ≤ s)) := by
  simp only [ratingStarsOf, starCount_num hmax hm, hs, jsOr_num_zero, jsLe_num]

/-! ## Concrete fixtures (drawn from the demo page `src/app/page.jsx`) -/

/-- The country select of the demo page (options abridged). -/
def countryField : Field :=
  { name := "country", label := "Country", type := "select",
    options := some [⟨"us", "USA"⟩, ⟨"other", "Other..."⟩] }

/-- The conditional `customCountry` field of the demo page. -/
def customCountryField : Field :=
  { name := "customCountry", label := "Specify Country", type := "text",
    conditional := some ⟨"country", .str "other"⟩ }

def demoFields : List Field := [countryField, customCountryField]

def demoValues : FormValues := [("country", JsValue.str "us")]

/-- What the component renders for `demoFields` at `demoValues` with no
errors: only the country select (customCountry is hidden). -/
def demoRendered : List RenderedField :=
  [{ name := "country", label := some "Country",
     control := .selectBox [⟨"us", "USA"⟩, ⟨"other", "Other..."⟩],
     errorMsg := none }]

/-! ## Claims -/

/-- C1: a descriptor with no `conditional` is rendered in every render; a
descriptor with `conditional: {field, value}` is rendered iff the current
value of the referenced field is strictly equal to `conditional.value`;
the check is recomputed from the latest values after every change; the
rendered controls are exactly the descriptors passing `shouldRender`, in
order, so a list with no `conditional` entries renders every field. -/
theorem C1_conditional_visibility
    (values : FormValues) (errs : ValidationResult)
    (fields : List Field) (rs : List RenderedField)
    (hok : renderForm values errs fields = .ok rs) :
    rs.map RenderedField.name =
      (fields.filter (fun f => shouldRender values f)).map Field.name ∧
    (∀ f : Field, f.conditional = none → shouldRender values f = true) ∧
    (∀ (f : Field) (c : Conditional), f.conditional = some c →
      (shouldRender values f = true ↔ getValue values c.field = c.value)) ∧
    (∀ (f : Field) (n : String) (v cv : JsValue),
      f.conditional = some ⟨n, cv⟩ →
      shouldRender (setValue values n v) f = (v == cv)) ∧
    ((∀ f ∈ fields, f.conditional = none) →
      rs.map RenderedField.name = fields.map Field.name) := by
  refine ⟨renderForm_ok_names hok, ?_, ?_, ?_, ?_⟩
  · intro f hf
    simp [shouldRender, hf]
  · intro f c hc
    simp [shouldRender, hc]
  · intro f n v cv hc
    simp [shouldRender, hc, getValue_setValue_self]
  · intro hall
    have hfilter : fields.filter (fun f => shouldRender values f) = fields :=
      List.filter_eq_self.mpr (fun f hf => by simp [shouldRender, hall f hf])
    rw [renderForm_ok_names hok, hfilter]

/-- Witness for C1 at the demo page's country / customCountry pair with
country set to "us": only the country select is rendered. -/
theorem C1_witness :
    demoRendered.map RenderedField.name =
      (demoFields.filter (fun f => shouldRender demoValues f)).map Field.name :=
  (C1_conditional_visibility demoValues [] demoFields demoRendered (by decide)).1

/-- A schema that always reports a failure for the (hidden) field
"extra". -/
def cexSchema : Schema := fun _ => [("extra", "Extra is required")]

/-- Descriptors where "extra" is conditional on country = "other". -/
def cexFields : List Field :=
  [countryField,
   { name := "extra", label := "Extra", type := "text",
     conditional := some ⟨"country", .str "other"⟩ }]

/-- Values under which "extra" is hidden yet fails validation. -/
def cexValues : FormValues :=
  [("country", JsValue.str "us"), ("extra", JsValue.str "")]

/-- C2 counterexample: validation fails for field "extra", `onSubmit` is
not invoked, yet no error message for "extra" is rendered — the only
rendered container is the country select with no message — because the
failing field is hidden by its `conditional`. This refutes "the failing
fields' messages are rendered instead" as a universal statement. -/
theorem C2_counterexample :
    (cexSchema cexValues).lookup "extra" = some "Extra is required" ∧
    onSubmitCalls cexSchema cexValues = [] ∧
    renderForm cexValues (cexSchema cexValues) cexFields =
      .ok [{ name := "country", label := some "Country",
             control := .selectBox [⟨"us", "USA"⟩, ⟨"other", "Other..."⟩],
             errorMsg := none }] := by decide

/-- C2 (amended): on submit, schema validation runs on the current
values; when it reports no errors, `onSubmit` is invoked exactly once
with the full value mapping; when it reports errors, `onSubmit` is not
invoked and every currently rendered field displays exactly the schema's
message for it (a failing field hidden by its `conditional` displays
nothing, since its whole container is skipped). -/
theorem C2_submit_validation
    (schema : Schema) (values : FormValues) (fields : List Field)
    (rs : List RenderedField)
    (hok : renderForm values (schema values) fields = .ok rs) :
    ((schema values).isEmpty = true →
      onSubmitCalls schema values = [values]) ∧
    ((schema values).isEmpty = false →
      onSubmitCalls schema values = [] ∧
      ∀ r ∈ rs, r.errorMsg = (schema values).lookup r.name) := by
  constructor
  · intro hempty
    simp [onSubmitCalls, handleSubmitRun, hempty]
  · intro hfail
    refine ⟨by simp [onSubmitCalls, handleSubmitRun, hfail], ?_⟩
    intro r hr
    obtain ⟨f, _, hfr⟩ := renderForm_ok_mem hok r hr
    obtain ⟨_, hname, hmsg⟩ := renderField_ok_some hfr
    rw [hmsg, hname]

/-- A schema failing on the visible "email" field, with its single
descriptor and rendered output, used to witness C2. -/
def c2Schema : Schema := fun vs =>
  match getValue vs "email" with
  | .str s => if s = "" then [("email", "Email is required")] else []
  | _ => [("email", "Email is required")]

def c2Fields : List Field :=
  [{ name := "email", label := "Email", type := "email" }]

/-- Witness for C2 (amended) at an empty value store: validation fails
on "email" and `onSubmit` receives no call; resubmitting with a valid
email address calls it once with the full mapping. -/
theorem C2_witness :
    onSubmitCalls c2Schema [] = [] ∧
    onSubmitCalls c2Schema [("email", JsValue.str "a@b.co")] =
      [[("email", JsValue.str "a@b.co")]] :=
  ⟨((C2_submit_validation c2Schema [] c2Fields
      [{ name := "email", label := some "Email",
         control := .input "email" none,
         errorMsg := some "Email is required" }] (by decide)).2 (by decide)).1,
   (C2_submit_validation c2Schema [("email", JsValue.str "a@b.co")] c2Fields
      [{ name := "email", label := some "Email",
         control := .input "email" none,
         errorMsg := none }] (by decide)).1 (by decide)⟩

/-- C3: a rating field with `max: m` (m ≥ 1) renders exactly m discrete
levels; with current selection s, level i+1 is filled (★) iff i+1 ≤ s and
empty (☆) otherwise; selecting level k records the integer k as the
field's value. -/
theorem C3_rating_control (values : FormValues) (f : Field) (m s : Int)
    (htype : f.type = "rating") (hmax : f.max = some (.num m)) (hm : 0 < m)
    (hs : getValue values f.name = .num s) :
    renderControl values f = .ok (.ratingRow (ratingStarsOf values f)) ∧
    (ratingStarsOf values f).length = m.toNat ∧
    (∀ i : Nat, i < m.toNat →
      ((ratingStarsOf values f).getD i false = true ↔ (i : Int) + 1 ≤ s)) ∧
    (∀ j : Int, getValue (setValue values f.name (.num j)) f.name = .num j) := by
  have hm0 : m ≠ 0 := by omega
  have hstars := ratingStarsOf_num hmax hm0 hs
  refine ⟨?_, ?_, ?_, ?_⟩
  · simp [renderControl, htype]
  · rw [hstars]; simp
  · intro i hi
    rw [hstars]
    simp [List.getD, List.getElem?_map, List.getElem?_range, hi]
  · intro j
    exact getValue_setValue_self values f.name (.num j)

/-- The demo rating descriptor, restricted to three stars. -/
def ratingField3 : Field :=
  { name := "rating", label := "Rate your experience", type := "rating",
    max := some (.num 3) }

/-- Witness for C3: with `max: 3` and level 2 selected, levels 1 and 2
are filled and level 3 is empty, and selecting level 2 recorded the
integer 2. -/
theorem C3_witness :
    ratingStarsOf [("rating", JsValue.num 2)] ratingField3 =
      [true, true, false] ∧
    getValue (setValue [] "rating" (JsValue.num 2)) "rating" =
      JsValue.num 2 :=
  ⟨by
    have h := (C3_rating_control [("rating", JsValue.num 2)] ratingField3 3 2
      rfl rfl (by decide) (by decide)).2.1
    decide,
   (C3_rating_control [("rating", JsValue.num 2)] ratingField3 3 2
      rfl rfl (by decide) (by decide)).2.2.2 2⟩

/-- A descriptor with an unrecognized `type`. -/
def unknownTypeField : Field :=
  { name := "huh", label := "Huh", type := "color" }

/-- C4 counterexample: a malformed descriptor with the unknown type
"color" is NOT detected — the render succeeds silently, emitting the
field's container and label with no control and no thrown or logged
error, refuting "for every malformed field descriptor ... the renderer
detects the configuration error at render time and fails loudly". -/
theorem C4_counterexample :
    renderForm [] [] [unknownTypeField] =
      .ok [{ name := "huh", label := some "Huh",
             control := .nothing, errorMsg := none }] := by decide

/-- C4 (amended): only a radio/select descriptor whose `options` is
missing fails loudly, with a thrown TypeError from mapping over
`undefined`; an unknown `type` silently renders a container with no
control, and a `conditional.field` referencing no set value is silently
compared against `undefined` rather than reported. -/
theorem C4_malformed_handling (values : FormValues) (f : Field)
    (hopts : f.options = none) :
    ((f.type = "select" ∨ f.type = "radio") →
      renderControl values f =
        .error (.typeError "Cannot read properties of undefined (reading map)")) ∧
    (f.type ∉ supportedTypes → renderControl values f = .ok .nothing) ∧
    (∀ c : Conditional, f.conditional = some c →
      (∀ p ∈ values, p.1 ≠ c.field) →
      shouldRender values f = (JsValue.undefined == c.value)) := by
  refine ⟨?_, ?_, ?_⟩
  · rintro (h | h) <;> simp [renderControl, h, hopts]
  · intro hns
    simp only [supportedTypes, List.mem_cons, List.not_mem_nil, or_false,
      not_or] at hns
    obtain ⟨h1, h2, h3, h4, h5, h6, h7, h8, h9, h10⟩ := hns
    simp [renderControl, h1, h2, h3, h4, h5, h6, h7, h8, h9, h10]
  · intro c hc hfree
    have hnone : values.lookup c.field = none :=
      lookup_eq_none_of_keys_ne hfree
    simp [shouldRender, hc, getValue, hnone]

/-- A select descriptor whose required `options` array is absent. -/
def selectNoOptionsField : Field :=
  { name := "pick", label := "Pick", type := "select" }

/-- Witness for C4 (amended): rendering a select with missing `options`
throws the TypeError. -/
theorem C4_witness :
    renderControl [] selectNoOptionsField =
      .error (.typeError "Cannot read properties of undefined (reading map)") :=
  (C4_malformed_handling [] selectNoOptionsField rfl).1 (Or.inl rfl)

/-- C5: hiding a conditional field does not clear its value — changing
the controlling field so the conditional field becomes hidden leaves its
stored value (and its entry's presence or absence) unchanged, and a
subsequent successful submission passes the full store, retained entry
included, to `onSubmit`; a hidden field that was never set still resolves
to `undefined`. -/
theorem C5_hidden_value_retained (values : FormValues) (f : Field)
    (n : String) (v cv : JsValue) (schema : Schema)
    (hc : f.conditional = some ⟨n, cv⟩) (hv : v ≠ cv) (hn : f.name ≠ n) :
    shouldRender (setValue values n v) f = false ∧
    getValue (setValue values n v) f.name = getValue values f.name ∧
    ((schema (setValue values n v)).isEmpty = true →
      onSubmitCalls schema (setValue values n v) = [setValue values n v] ∧
      (setValue values n v).lookup f.name = values.lookup f.name) ∧
    (values.lookup f.name = none →
      getValue (setValue values n v) f.name = .undefined) := by
  refine ⟨?_, getValue_setValue_ne values n v f.name hn, ?_, ?_⟩
  · simp [shouldRender, hc, getValue_setValue_self, hv]
  · intro hempty
    exact ⟨by simp [onSubmitCalls, handleSubmitRun, hempty],
      lookup_setValue_ne values n v f.name hn⟩
  · intro hnone
    simp [getValue, lookup_setValue_ne values n v f.name hn, hnone]

def c5Values : FormValues :=
  [("customCountry", JsValue.str "Wakanda"), ("country", JsValue.str "other")]

def c5Schema : Schema := fun _ => []

/-- Witness for C5: customCountry keeps "Wakanda" after country flips
from "other" to "us" (hiding it), and the successful submission passes
the whole store, that entry included. -/
theorem C5_witness :
    shouldRender (setValue c5Values "country" (JsValue.str "us"))
      customCountryField = false ∧
    getValue (setValue c5Values "country" (JsValue.str "us"))
      "customCountry" = JsValue.str "Wakanda" ∧
    onSubmitCalls c5Schema (setValue c5Values "country" (JsValue.str "us")) =
      [setValue c5Values "country" (JsValue.str "us")] :=
  ⟨(C5_hidden_value_retained c5Values customCountryField "country"
      (.str "us") (.str "other") c5Schema rfl (by decide) (by decide)).1,
   ((C5_hidden_value_retained c5Values customCountryField "country"
      (.str "us") (.str "other") c5Schema rfl (by decide) (by decide)).2.1).trans
     (by decide),
   ((C5_hidden_value_retained c5Values customCountryField "country"
      (.str "us") (.str "other") c5Schema rfl (by decide) (by decide)).2.2.1
     (by decide)).1⟩

/-- C6: once a previously-invalid field's value is changed to one the
schema accepts (here: to values the schema passes wholesale), submitting
again replaces the displayed errors with the fresh (empty) result — so
the field's prior message is gone from the render — and hands the values
to `onSubmit`. -/
theorem C6_error_clears (schema : Schema) (s : FormState) (n : String)
    (v : JsValue) (msg : String) (fields : List Field)
    (rs : List RenderedField)
    (hprev : s.errors.lookup n = some msg)
    (hvalid : schema (changeValue s n v).values = [])
    (hok : renderForm (changeValue s n v).values
            ((submitStep schema (changeValue s n v)).1.errors) fields = .ok rs) :
    (submitStep schema (changeValue s n v)).1.errors = [] ∧
    (submitStep schema (changeValue s n v)).2 =
      some (changeValue s n v).values ∧
    (∀ r ∈ rs, r.errorMsg = none) := by
  have herrs : (submitStep schema (changeValue s n v)).1.errors = [] := by
    simp [submitStep, hvalid]
  refine ⟨herrs, by simp [submitStep, hvalid], ?_⟩
  intro r hr
  obtain ⟨f, _, hfr⟩ := renderForm_ok_mem hok r hr
  obtain ⟨_, _, hmsg⟩ := renderField_ok_some hfr
  rw [hmsg, herrs]
  rfl

def c6State : FormState :=
  { values := [("email", JsValue.str "")],
    errors := [("email", "Email is required")] }

/-- Witness for C6: after changing "email" to a passing value, the
submit step clears the error list and submits the updated values. -/
theorem C6_witness :
    (submitStep c2Schema
      (changeValue c6State "email" (JsValue.str "a@b.co"))).1.errors = [] ∧
    (submitStep c2Schema
      (changeValue c6State "email" (JsValue.str "a@b.co"))).2 =
      some (changeValue c6State "email" (JsValue.str "a@b.co")).values :=
  ⟨(C6_error_clears c2Schema c6State "email" (JsValue.str "a@b.co")
      "Email is required" c2Fields
      [{ name := "email", label := some "Email",
         control := .input "email" none, errorMsg := none }]
      (by decide) (by decide) (by decide)).1,
   (C6_error_clears c2Schema c6State "email" (JsValue.str "a@b.co")
      "Email is required" c2Fields
      [{ name := "email", label := some "Email",
         control := .input "email" none, errorMsg := none }]
      (by decide) (by decide) (by decide)).2.1⟩

/-- C7: each rendered field displays at most one error message — the one
the component reads from `errors[field.name].message` — and when a
message is shown it is the first failure the resolver reported for that
field: every earlier entry of the error list concerns another field. -/
theorem C7_single_first_message (values : FormValues)
    (errs : ValidationResult) (fields : List Field)
    (rs : List RenderedField) (r : RenderedField)
    (hok : renderForm values errs fields = .ok rs) (hr : r ∈ rs) :
    r.errorMsg = errs.lookup r.name ∧
    (∀ msg, r.errorMsg = some msg →
      ∃ pre post, errs = pre ++ (r.name, msg) :: post ∧
        ∀ p ∈ pre, p.1 ≠ r.name) := by
  obtain ⟨f, _, hfr⟩ := renderForm_ok_mem hok r hr
  obtain ⟨_, hname, hmsg⟩ := renderField_ok_some hfr
  have hlook : r.errorMsg = errs.lookup r.name := by rw [hmsg, hname]
  refine ⟨hlook, ?_⟩
  intro msg hsome
  exact lookup_split (hlook.symm.trans hsome)

/-- An error list carrying two messages for "email"; only the first is
ever displayed. -/
def c7Errs : ValidationResult :=
  [("email", "Email is required"), ("email", "Invalid email")]

/-- Witness for C7: over `c7Errs` the rendered email field shows exactly
the first reported message. -/
theorem C7_witness :
    ({ name := "email", label := some "Email",
       control := .input "email" none,
       errorMsg := some "Email is required" } : RenderedField).errorMsg =
      c7Errs.lookup "email" :=
  (C7_single_first_message [] c7Errs c2Fields
    [{ name := "email", label := some "Email",
       control := .input "email" none,
       errorMsg := some "Email is required" }]
    { name := "email", label := some "Email",
      control := .input "email" none,
      errorMsg := some "Email is required" }
    (by decide) (by decide)).1

/-- C8: `enhancedSubmit` is `(data) => { onSubmit(data); }` with no
`try`/`catch` — when validation passes and the caller-supplied
`onSubmit` throws, the exception propagates unchanged out of the submit
wrapper. -/
theorem C8_onSubmit_exception (schema : Schema)
    (onSubmit : FormValues → Except String Unit) (values : FormValues)
    (e : String) (hvalid : (schema values).isEmpty = true)
    (hthrow : onSubmit values = .error e) :
    submitEvent schema onSubmit values = .error e := by
  simp [submitEvent, hvalid, enhancedSubmit, hthrow]

/-- Witness for C8: a passing schema and a callback throwing "boom"
yield "boom" out of the submit event. -/
theorem C8_witness :
    submitEvent (fun _ => []) (fun _ => .error "boom") [] =
      .error "boom" :=
  C8_onSubmit_exception (fun _ => []) (fun _ => .error "boom") [] "boom"
    rfl rfl

/-- C9 (implicit): when a currently-hidden conditional field fails
schema validation at submit, `onSubmit` is not invoked, yet no rendered
container carries that field's name — the render loop skips the whole
container, error-message slot included — so submission is blocked with no
visible indication for that field. -/
theorem C9_hidden_error_invisible (schema : Schema) (values : FormValues)
    (fields : List Field) (f : Field) (c : Conditional) (msg : String)
    (rs : List RenderedField)
    (hf : f ∈ fields) (hc : f.conditional = some c)
    (hne : getValue values c.field ≠ c.value)
    (huniq : ∀ g ∈ fields, g.name = f.name → g = f)
    (herr : (schema values).lookup f.name = some msg)
    (hok : renderForm values (schema values) fields = .ok rs) :
    onSubmitCalls schema values = [] ∧
    (∀ r ∈ rs, r.name ≠ f.name) := by
  have hfail : (schema values).isEmpty = false := by
    cases hsv : schema values with
    | nil => rw [hsv] at herr; simp [List.lookup] at herr
    | cons p rest => simp
  refine ⟨by simp [onSubmitCalls, handleSubmitRun, hfail], ?_⟩
  intro r hr hname
  obtain ⟨g, hg, hgr⟩ := renderForm_ok_mem hok r hr
  obtain ⟨hsr, hgname, _⟩ := renderField_ok_some hgr
  have hgf : g = f := huniq g hg (hgname.symm.trans hname)
  rw [hgf] at hsr
  rw [shouldRender, hc] at hsr
  exact hne (by simpa using hsr)

def c9Schema : Schema := fun _ => [("extra", "Extra is required")]

def c9Fields : List Field :=
  [countryField,
   { name := "extra", label := "Extra", type := "text",
     conditional := some ⟨"country", .str "other"⟩ }]

def c9Values : FormValues := [("country", JsValue.str "us")]

/-- Witness for C9: "extra" is hidden (country is "us"), its schema
failure blocks submission, and nothing rendered carries its name. -/
theorem C9_witness :
    onSubmitCalls c9Schema c9Values = [] :=
  (C9_hidden_error_invisible c9Schema c9Values c9Fields
    { name := "extra", label := "Extra", type := "text",
      conditional := some ⟨"country", .str "other"⟩ }
    ⟨"country", .str "other"⟩ "Extra is required"
    [{ name := "country", label := some "Country",
       control := .selectBox [⟨"us", "USA"⟩, ⟨"other", "Other..."⟩],
       errorMsg := none }]
    (by decide) rfl (by decide) (by decide) (by decide) (by decide)).1

/-- C10 (implicit): the rating default is applied with
`field.max || 5`, so ANY falsy `max` — 0, null, or absent — yields
exactly 5 rendered levels, not 0. -/
theorem C10_falsy_max_five (values : FormValues) (f : Field)
    (htype : f.type = "rating")
    (hfalsy : ∀ m, f.max = some m → m.truthy = false) :
    starCount f = 5 ∧
    renderControl values f = .ok (.ratingRow (ratingStarsOf values f)) ∧
    (ratingStarsOf values f).length = 5 := by
  have hsc : starCount f = 5 := by
    cases hm : f.max with
    | none => simp [starCount, hm, jsOr, JsValue.truthy]
    | some m =>
      have := hfalsy m hm
      simp [starCount, hm, jsOr, this]
  refine ⟨hsc, by simp [renderControl, htype], ?_⟩
  simp [ratingStarsOf, hsc]

/-- A rating descriptor with the falsy `max: 0`. -/
def ratingField0 : Field :=
  { name := "rating", label := "Rating", type := "rating",
    max := some (.num 0) }

/-- Witness for C10: `max: 0` renders 5 stars, not 0. -/
theorem C10_witness :
    starCount ratingField0 = 5 ∧
    (ratingStarsOf [] ratingField0).length = 5 :=
  ⟨(C10_falsy_max_five [] ratingField0 rfl
      (fun m hm => by
        simp only [ratingField0, Option.some.injEq] at hm
        rw [← hm]
        decide)).1,
   (C10_falsy_max_five [] ratingField0 rfl
      (fun m hm => by
        simp only [ratingField0, Option.some.injEq] at hm
        rw [← hm]
        decide)).2.2⟩

end ReusableForm
